import Mathlib

/-!
# Verification of the IonGauge354 protocol and polling engine

Shallow embedding of `src/core/ion_gauge_354.py` (class `IonGauge354`):
the CRC-16 checksum (`calc_crc`), the binary request framing
(`send_command`), the response decoding (`read_pressure`), and the
polling loop (`stream` / `write_to_h5`).

Byte strings are modelled as `List Nat` (each element a byte value),
the 16-bit CRC accumulator as a `Nat` kept below `2^16`, Python float
configuration values (`duration`) as exact rationals, and the decoded
IEEE-754 binary32 pressure as an exact rational (`none` for the
non-finite bit patterns).  Wall-clock timestamps are opaque tokens
supplied by an oracle; the serial transport is modelled by an oracle
giving the byte string each exchange returns.
-/

namespace IonGauge354

/-! ## CrcCodec: `calc_crc` (source lines 94–104) -/

/-- One inner-loop step of `calc_crc`:
`if crc & 1: crc = (crc >> 1) ^ 0xA001 else: crc >>= 1`. -/
def crcShiftStep (crc : Nat) : Nat :=
  if crc % 2 = 1 then (crc / 2) ^^^ 0xA001 else crc / 2

/-- Processing of one data byte in `calc_crc`: `crc ^= byte` followed by
eight shift steps (`for _ in range(8)`). -/
def crcByteStep (crc b : Nat) : Nat :=
  crcShiftStep^[8] (crc ^^^ b)

/-- The final CRC accumulator of `calc_crc`: start at `0xFFFF`, process
each data byte in order. -/
def calc_crc_acc (data : List Nat) : Nat :=
  data.foldl crcByteStep 0xFFFF

/-- `calc_crc(data_bytes)`: the accumulator emitted as two bytes,
least-significant first (`crc.to_bytes(2, byteorder='little')`; the
accumulator stays below `2^16`, see `calc_crc_acc_lt`). -/
def calc_crc (data : List Nat) : List Nat :=
  [calc_crc_acc data % 256, calc_crc_acc data / 256]

/-- Modelled from the spec (§4.1): the CRC-16 Modbus/ANSI algorithm as
the spec words it — accumulator initialised to `0xFFFF`; per input byte,
XOR into the accumulator then eight rounds of: test the low bit, shift
right by one, XOR `0xA001` when the bit was set; emitted low byte
first.  Written with `testBit`/`>>>` and explicit recursion, to be
compared with `calc_crc` above. -/
def crc16spec_rounds : Nat → Nat → Nat
  | 0, crc => crc
  | n + 1, crc =>
      crc16spec_rounds n
        (if crc.testBit 0 then (crc >>> 1) ^^^ 0xA001 else crc >>> 1)

/-- Spec-modelled accumulator over the whole input (see
`crc16spec_rounds`). -/
def crc16spec_acc : Nat → List Nat → Nat
  | crc, [] => crc
  | crc, b :: rest => crc16spec_acc (crc16spec_rounds 8 (crc ^^^ b)) rest

/-- Spec-modelled checksum: final accumulator, least-significant byte
first. -/
def crc16_modbus_spec (data : List Nat) : List Nat :=
  [crc16spec_acc 0xFFFF data % 256, crc16spec_acc 0xFFFF data / 256]

lemma crcShiftStep_eq_specRound (crc : Nat) :
    crcShiftStep crc =
      (if crc.testBit 0 then (crc >>> 1) ^^^ 0xA001 else crc >>> 1) := by
  simp [crcShiftStep, Nat.testBit_zero, Nat.shiftRight_one]

lemma crc16spec_rounds_eq_iterate (n crc : Nat) :
    crc16spec_rounds n crc = crcShiftStep^[n] crc := by
  induction n generalizing crc with
  | zero => rfl
  | succ n ih =>
      rw [crc16spec_rounds, Function.iterate_succ_apply, ih,
        crcShiftStep_eq_specRound]

lemma crc16spec_acc_eq_foldl (crc : Nat) (data : List Nat) :
    crc16spec_acc crc data = data.foldl crcByteStep crc := by
  induction data generalizing crc with
  | nil => rfl
  | cons b rest ih =>
      rw [crc16spec_acc, List.foldl_cons, ih, crcByteStep,
        crc16spec_rounds_eq_iterate]

lemma crcShiftStep_lt (crc : Nat) (h : crc < 65536) :
    crcShiftStep crc < 65536 := by
  rw [crcShiftStep]
  split
  · exact Nat.xor_lt_two_pow (n := 16) (by omega) (by norm_num)
  · omega

lemma crcByteStep_lt (crc b : Nat) (hc : crc < 65536) (hb : b < 256) :
    crcByteStep crc b < 65536 := by
  have h0 : crc ^^^ b < 65536 :=
    Nat.xor_lt_two_pow (n := 16) hc (by omega)
  rw [crcByteStep]
  have : ∀ n x, x < 65536 → crcShiftStep^[n] x < 65536 := by
    intro n
    induction n with
    | zero => intro x hx; simpa using hx
    | succ n ih =>
        intro x hx
        rw [Function.iterate_succ_apply]
        exact ih _ (crcShiftStep_lt x hx)
  exact this 8 _ h0

/-- The CRC accumulator stays a 16-bit value on byte-valued input. -/
lemma calc_crc_acc_lt (data : List Nat) (h : ∀ b ∈ data, b < 256) :
    calc_crc_acc data < 65536 := by
  rw [calc_crc_acc]
  have : ∀ crc, crc < 65536 → data.foldl crcByteStep crc < 65536 := by
    induction data with
    | nil => intro crc hc; simpa using hc
    | cons b rest ih =>
        intro crc hc
        rw [List.foldl_cons]
        exact ih (fun x hx => h x (List.mem_cons_of_mem _ hx))
          _ (crcByteStep_lt crc b hc (h b (List.mem_cons_self _ _)))
  exact this 0xFFFF (by norm_num)

/-- C1: `calc_crc` implements CRC-16 (Modbus variant) exactly as the
spec describes it — it agrees with the spec-worded algorithm
`crc16_modbus_spec` on every byte sequence, returns `0xFF, 0xFF` on the
empty input, and is deterministic. -/
theorem calc_crc_is_crc16_modbus :
    (∀ data : List Nat, calc_crc data = crc16_modbus_spec data) ∧
    calc_crc [] = [0xFF, 0xFF] ∧
    (∀ d₁ d₂ : List Nat, d₁ = d₂ → calc_crc d₁ = calc_crc d₂) := by
  refine ⟨fun data => ?_, by decide, fun d₁ d₂ h => by rw [h]⟩
  rw [calc_crc, crc16_modbus_spec, crc16spec_acc_eq_foldl, calc_crc_acc]

/-- Witness for C1 at concrete inputs: the refinement evaluated on the
byte string `[0x01, 0x02]` and determinism applied there. -/
theorem calc_crc_is_crc16_modbus_witness :
    calc_crc [0x01, 0x02] = crc16_modbus_spec [0x01, 0x02] ∧
    calc_crc [0x01, 0x02] = calc_crc [0x01, 0x02] :=
  ⟨calc_crc_is_crc16_modbus.1 [0x01, 0x02],
    calc_crc_is_crc16_modbus.2.2 [0x01, 0x02] [0x01, 0x02] rfl⟩

/-! ## FrameCodec: request framing in `send_command` (source lines 144–151)

`send_command` builds `packet = b'!' + body + crc` with
`body = addr + bytes([cmd]) + payload` and `crc = calc_crc(body)`;
`addr` is the configured address parsed from its hex string, modelled
here directly as the parsed byte value. -/

/-- The request packet `send_command` writes to the serial port. -/
def send_command_packet (address cmd : Nat) (payload : List Nat) : List Nat :=
  let body := [address, cmd] ++ payload
  [0x21] ++ body ++ calc_crc body

/-- C2: for every address and command byte in `0..255` and every byte
payload, the encoded request frame is exactly the start marker `0x21`,
then the address byte, the command byte, the payload, then the two CRC
bytes (least-significant first) computed over address+command+payload
only — and every emitted element is a byte value. -/
theorem send_command_packet_structure (a c : Nat) (p : List Nat)
    (ha : a < 256) (hc : c < 256) (hp : ∀ b ∈ p, b < 256) :
    send_command_packet a c p =
      [0x21] ++ [a] ++ [c] ++ p ++ calc_crc ([a, c] ++ p) ∧
    ∀ b ∈ send_command_packet a c p, b < 256 := by
  constructor
  · simp [send_command_packet]
  · intro b hb
    have hbody : ∀ x ∈ a :: c :: p, x < 256 := by
      intro x hx
      rcases List.mem_cons.mp hx with rfl | hx
      · exact ha
      · rcases List.mem_cons.mp hx with rfl | hx
        · exact hc
        · exact hp x hx
    have hacc : calc_crc_acc (a :: c :: p) < 65536 :=
      calc_crc_acc_lt _ hbody
    simp only [send_command_packet, List.cons_append, List.nil_append,
      calc_crc, List.mem_cons] at hb
    rcases hb with rfl | rfl | rfl | hb
    · norm_num
    · exact ha
    · exact hc
    · rcases List.mem_append.mp hb with hb | hb
      · exact hp b hb
      · rcases List.mem_cons.mp hb with rfl | hb
        · omega
        · rcases List.mem_cons.mp hb with rfl | hb
          · omega
          · exact absurd hb (List.not_mem_nil b)

/-- Witness for C2: the frame for address `0x01`, command `0x02`, empty
payload has the claimed shape and byte-valued entries. -/
theorem send_command_packet_structure_witness :
    send_command_packet 0x01 0x02 [] =
      [0x21] ++ [0x01] ++ [0x02] ++ [] ++ calc_crc [0x01, 0x02] ∧
    ∀ b ∈ send_command_packet 0x01 0x02 [], b < 256 :=
  send_command_packet_structure 0x01 0x02 [] (by norm_num) (by norm_num)
    (by simp)

/-! ## FrameCodec: response decoding in `read_pressure`
(source lines 162–193) -/

/-- Big-endian 32-bit word from the four pressure bytes `resp[4:8]`
(the byte order `struct.unpack('>f', ...)` reads). -/
def be32 (b0 b1 b2 b3 : Nat) : Nat :=
  ((b0 * 256 + b1) * 256 + b2) * 256 + b3

/-- Exact value represented by an IEEE-754 binary32 bit pattern, as
`struct.unpack('>f', ...)` decodes it: `none` for the non-finite
patterns (exponent field all ones), otherwise the represented rational
(subnormal when the exponent field is zero, normal otherwise). -/
def ieee754_binary32_val (bits : Nat) : Option ℚ :=
  let sign : Nat := bits / 2 ^ 31 % 2
  let ex : Nat := bits / 2 ^ 23 % 2 ^ 8
  let frac : Nat := bits % 2 ^ 23
  if ex = 255 then none
  else
    let mag : ℚ :=
      if ex = 0 then (frac : ℚ) / 2 ^ 23 * (2 : ℚ) ^ (-(126 : ℤ))
      else (1 + (frac : ℚ) / 2 ^ 23) * (2 : ℚ) ^ ((ex : ℤ) - 127)
    some (if sign = 1 then -mag else mag)

/-- Observable outcome of the decoding part of `read_pressure`.  The
code prints one diagnostic per rejection cause and returns `None`:
`invalidOrEmpty` is the single `"Invalid or empty response"` rejection
(source line 170) covering an empty read, a response shorter than 10
bytes and a wrong start marker alike; `unexpectedAddress` and
`unexpectedCmdEcho` carry the offending byte the code reports. -/
inductive DecodeResult where
  | invalidOrEmpty : DecodeResult
  | unexpectedAddress : Nat → DecodeResult
  | unexpectedCmdEcho : Nat → DecodeResult
  | ok : Option ℚ → DecodeResult
  deriving DecidableEq

/-- The decoding part of `read_pressure` applied to the raw response
`resp`, with configured address `addrCfg` and the command byte `cmd`
that was sent: reject when `not resp or len(resp) < 10 or
resp[0] != ord('*')`; then compare `resp[1]` with the address and
`resp[2]` with the command; `resp[3]` (units) is read but unused;
`resp[4:8]` decode as a big-endian binary32 float. -/
def decode_resp (addrCfg cmd : Nat) (resp : List Nat) : DecodeResult :=
  if resp = [] ∨ resp.length < 10 ∨ resp.headD 0 ≠ 0x2A then
    DecodeResult.invalidOrEmpty
  else
    let addr := resp.getD 1 0
    if addr ≠ addrCfg then DecodeResult.unexpectedAddress addr
    else
      let cmd_echo := resp.getD 2 0
      if cmd_echo ≠ cmd then DecodeResult.unexpectedCmdEcho cmd_echo
      else
        DecodeResult.ok (ieee754_binary32_val
          (be32 (resp.getD 4 0) (resp.getD 5 0) (resp.getD 6 0)
            (resp.getD 7 0)))

/-- `read_pressure` sends and expects the command byte `0x02`. -/
def read_pressure_decode (addrCfg : Nat) (resp : List Nat) : DecodeResult :=
  decode_resp addrCfg 0x02 resp

lemma headD_eq_getD (l : List Nat) (d : Nat) : l.headD d = l.getD 0 d := by
  cases l <;> rfl

/-- C3 counterexample: a too-short response and a ≥10-byte response with
a wrong start marker are rejected with the SAME error value (the single
`"Invalid or empty response"` outcome), so short frames and
bad-start-marker frames do not get distinct errors. -/
theorem decode_short_badmarker_same_error :
    read_pressure_decode 0x01 [0x2A, 0x01] =
      read_pressure_decode 0x01
        [0x00, 0x01, 0x02, 0x04, 0x43, 0x48, 0x00, 0x00, 0x00, 0x00] ∧
    read_pressure_decode 0x01 [0x2A, 0x01] = DecodeResult.invalidOrEmpty := by
  constructor <;> decide

/-- C3 (amended): decoding validates in order and rejects — every
response shorter than 10 bytes and every response whose first byte is
not `0x2A` are both rejected, but with the same single
`invalidOrEmpty` error; a mismatched address byte is rejected with the
distinct error `unexpectedAddress` and a mismatched command echo with
the distinct error `unexpectedCmdEcho`; the three rejection values are
pairwise distinct and none of them is an acceptance. -/
theorem decode_rejects_in_order (addrCfg cmd : Nat) (resp : List Nat) :
    (resp.length < 10 →
      decode_resp addrCfg cmd resp = DecodeResult.invalidOrEmpty) ∧
    (resp.headD 0 ≠ 0x2A →
      decode_resp addrCfg cmd resp = DecodeResult.invalidOrEmpty) ∧
    (10 ≤ resp.length → resp.headD 0 = 0x2A → resp.getD 1 0 ≠ addrCfg →
      decode_resp addrCfg cmd resp =
        DecodeResult.unexpectedAddress (resp.getD 1 0)) ∧
    (10 ≤ resp.length → resp.headD 0 = 0x2A → resp.getD 1 0 = addrCfg →
      resp.getD 2 0 ≠ cmd →
      decode_resp addrCfg cmd resp =
        DecodeResult.unexpectedCmdEcho (resp.getD 2 0)) ∧
    (∀ x y : Nat, ∀ q : Option ℚ,
      DecodeResult.invalidOrEmpty ≠ DecodeResult.unexpectedAddress x ∧
      DecodeResult.invalidOrEmpty ≠ DecodeResult.unexpectedCmdEcho x ∧
      DecodeResult.unexpectedAddress x ≠ DecodeResult.unexpectedCmdEcho y ∧
      DecodeResult.invalidOrEmpty ≠ DecodeResult.ok q ∧
      DecodeResult.unexpectedAddress x ≠ DecodeResult.ok q ∧
      DecodeResult.unexpectedCmdEcho x ≠ DecodeResult.ok q) := by
  refine ⟨fun h => ?_, fun h => ?_, fun h1 h2 h3 => ?_, fun h1 h2 h3 h4 => ?_,
    fun x y q => ⟨by simp, by simp, by simp, by simp, by simp, by simp⟩⟩
  · rw [decode_resp, if_pos (Or.inr (Or.inl h))]
  · rw [decode_resp, if_pos (Or.inr (Or.inr h))]
  · have hne : resp ≠ [] := by intro hnil; rw [hnil] at h1; simp at h1
    simp only [decode_resp]
    rw [if_neg (by push_neg; exact ⟨hne, by omega, h2⟩), if_pos h3]
  · have hne : resp ≠ [] := by intro hnil; rw [hnil] at h1; simp at h1
    simp only [decode_resp]
    rw [if_neg (by push_neg; exact ⟨hne, by omega, h2⟩),
      if_neg (not_not_intro h3), if_pos h4]

/-- Witness for C3 (amended): each rejection cause exercised on a
concrete 10-byte (or shorter) response. -/
theorem decode_rejects_in_order_witness :
    decode_resp 1 2 [0x2A] = DecodeResult.invalidOrEmpty ∧
    decode_resp 1 2 [0x00, 1, 2, 0, 0, 0, 0, 0, 0, 0] =
      DecodeResult.invalidOrEmpty ∧
    decode_resp 1 2 [0x2A, 3, 2, 0, 0, 0, 0, 0, 0, 0] =
      DecodeResult.unexpectedAddress 3 ∧
    decode_resp 1 2 [0x2A, 1, 7, 0, 0, 0, 0, 0, 0, 0] =
      DecodeResult.unexpectedCmdEcho 7 :=
  ⟨(decode_rejects_in_order 1 2 [0x2A]).1 (by decide),
    (decode_rejects_in_order 1 2 [0x00, 1, 2, 0, 0, 0, 0, 0, 0, 0]).2.1
      (by decide),
    (decode_rejects_in_order 1 2 [0x2A, 3, 2, 0, 0, 0, 0, 0, 0, 0]).2.2.1
      (by decide) (by decide) (by decide),
    (decode_rejects_in_order 1 2 [0x2A, 1, 7, 0, 0, 0, 0, 0, 0, 0]).2.2.2.1
      (by decide) (by decide) (by decide) (by decide)⟩

/-- C6: every response of length at least 10 whose first eight bytes are
`2A 01 02 04 43 48 00 00` decodes, for expected address `0x01` and the
command echo `0x02` that `read_pressure` uses, to pressure exactly 200
(bytes 4..7 as a big-endian IEEE-754 binary32). -/
theorem decode_pressure_200 (resp : List Nat)
    (hlen : 10 ≤ resp.length)
    (hpre : resp.take 8 = [0x2A, 0x01, 0x02, 0x04, 0x43, 0x48, 0x00, 0x00]) :
    read_pressure_decode 0x01 resp = DecodeResult.ok (some 200) := by
  obtain ⟨rest, hresp⟩ :
      ∃ rest,
        resp = [0x2A, 0x01, 0x02, 0x04, 0x43, 0x48, 0x00, 0x00] ++ rest :=
    ⟨resp.drop 8, by rw [← hpre, List.take_append_drop]⟩
  subst hresp
  have hr : 2 ≤ rest.length := by
    rw [List.length_append] at hlen
    simp only [List.length_cons, List.length_nil] at hlen
    omega
  simp only [read_pressure_decode, decode_resp, List.cons_append,
    List.nil_append]
  rw [if_neg (by push_neg; exact ⟨by simp, by simp [hr], by simp⟩)]
  simp only [List.getD_cons_zero, List.getD_cons_succ]
  norm_num [be32, ieee754_binary32_val]

/-- Witness for C6: the 10-byte response
`2A 01 02 04 43 48 00 00 12 34` decodes to pressure 200. -/
theorem decode_pressure_200_witness :
    read_pressure_decode 0x01
        [0x2A, 0x01, 0x02, 0x04, 0x43, 0x48, 0x00, 0x00, 0x12, 0x34] =
      DecodeResult.ok (some 200) :=
  decode_pressure_200
    [0x2A, 0x01, 0x02, 0x04, 0x43, 0x48, 0x00, 0x00, 0x12, 0x34]
    (by decide) (by decide)

/-- C9: decoding performs no CRC verification and ignores the units
byte — any two responses each of length at least 10 that agree on bytes
0, 1, 2 and 4..7 decode to the same result for the same expected
address and command, whatever their units byte, trailing bytes
(including the transmitted CRC field) and lengths. -/
theorem decode_ignores_units_and_crc (addrCfg cmd : Nat) (r₁ r₂ : List Nat)
    (hl₁ : 10 ≤ r₁.length) (hl₂ : 10 ≤ r₂.length)
    (h0 : r₁.getD 0 0 = r₂.getD 0 0) (h1 : r₁.getD 1 0 = r₂.getD 1 0)
    (h2 : r₁.getD 2 0 = r₂.getD 2 0) (h4 : r₁.getD 4 0 = r₂.getD 4 0)
    (h5 : r₁.getD 5 0 = r₂.getD 5 0) (h6 : r₁.getD 6 0 = r₂.getD 6 0)
    (h7 : r₁.getD 7 0 = r₂.getD 7 0) :
    decode_resp addrCfg cmd r₁ = decode_resp addrCfg cmd r₂ := by
  have e₁ : r₁ ≠ [] := by intro h; rw [h] at hl₁; simp at hl₁
  have e₂ : r₂ ≠ [] := by intro h; rw [h] at hl₂; simp at hl₂
  have k₁ : (r₁ = [] ∨ r₁.length < 10 ∨ r₁.headD 0 ≠ 0x2A) =
      (r₂.getD 0 0 ≠ 0x2A) := by
    rw [headD_eq_getD, h0]
    apply propext
    constructor
    · rintro (h | h | h)
      · exact absurd h e₁
      · omega
      · exact h
    · exact fun h => Or.inr (Or.inr h)
  have k₂ : (r₂ = [] ∨ r₂.length < 10 ∨ r₂.headD 0 ≠ 0x2A) =
      (r₂.getD 0 0 ≠ 0x2A) := by
    rw [headD_eq_getD]
    apply propext
    constructor
    · rintro (h | h | h)
      · exact absurd h e₂
      · omega
      · exact h
    · exact fun h => Or.inr (Or.inr h)
  simp only [decode_resp, k₁, k₂, h1, h2, h4, h5, h6, h7]

/-- Witness for C9: two responses differing in the units byte, the
trailing CRC bytes and length decode identically. -/
theorem decode_ignores_units_and_crc_witness :
    decode_resp 1 2 [0x2A, 1, 2, 0x04, 0x43, 0x48, 0, 0, 0xAA, 0xBB] =
      decode_resp 1 2 [0x2A, 1, 2, 0xFF, 0x43, 0x48, 0, 0, 1, 2, 3, 4] :=
  decode_ignores_units_and_crc 1 2
    [0x2A, 1, 2, 0x04, 0x43, 0x48, 0, 0, 0xAA, 0xBB]
    [0x2A, 1, 2, 0xFF, 0x43, 0x48, 0, 0, 1, 2, 3, 4]
    (by decide) (by decide) (by decide) (by decide) (by decide) (by decide)
    (by decide) (by decide) (by decide)

/-! ## PollingLoop: `stream` and `write_to_h5` (source lines 196–231)

The mutable object state `stream` touches is made explicit.  The
pressure value returned by each `read_pressure` call and the timestamp
computed from the wall clock are supplied by oracles, indexed by the
iteration's position within the run; an external actor clearing
`self._running` is an oracle over guard checks.  The configuration
value `duration` (a Python float compared exactly against the integer
iteration counter) is modelled as a rational. -/

/-- Mutable state of the object during `stream`: `_running`,
`_curr_itteration`, `_start_time` (an opaque token fixed in
`__init__`), the rows so far appended to the HDF5 table (index,
timestamp token, pressure), and the number of log lines printed. -/
structure StreamState where
  running : Bool
  currItteration : Nat
  startTime : Nat
  records : List (Nat × Nat × ℚ)
  logLines : Nat
  deriving DecidableEq, Repr

/-- The state `__init__` leaves (source lines 56–60): not running,
iteration counter 0, start time taken at construction; no rows
appended, nothing logged. -/
def initState (constructionTime : Nat) : StreamState :=
  { running := false
    currItteration := 0
    startTime := constructionTime
    records := []
    logLines := 0 }

/-- `write_to_h5(index, timestamp, pressure)` (source lines 212–231):
returns without writing when the configured `h5file` path is empty;
otherwise appends exactly one row at the end of the three parallel
columns. -/
def write_to_h5 (h5fileSet : Bool) (index timestamp : Nat) (pressure : ℚ)
    (table : List (Nat × Nat × ℚ)) : List (Nat × Nat × ℚ) :=
  if h5fileSet then table ++ [(index, timestamp, pressure)] else table

/-- One pass of the `stream` loop body (source lines 201–210): read a
pressure, compute the timestamp, print one line; only when the read
succeeded AND `store_data` is set is `write_to_h5` called; then
`_curr_itteration` is incremented (the `interval` sleep changes no
state). -/
def streamStep (store_data h5fileSet : Bool) (pressure : Option ℚ)
    (timestamp : Nat) (s : StreamState) : StreamState :=
  match pressure with
  | some p =>
      { s with
        records :=
          if store_data then
            write_to_h5 h5fileSet s.currItteration timestamp p s.records
          else s.records
        logLines := s.logLines + 1
        currItteration := s.currItteration + 1 }
  | none =>
      { s with
        logLines := s.logLines + 1
        currItteration := s.currItteration + 1 }

/-- What `stream` does before entering its loop (source line 199): set
`self._running = True`.  It does NOT reset `_curr_itteration` or
`_start_time`; those are assigned only in `__init__`. -/
def stream_start (s : StreamState) : StreamState :=
  { s with running := true }

/-- State after `k` executed loop iterations, the `j`-th iteration of
the run reading `reads j` and stamping `tstamps j`. -/
def streamIter (store_data h5fileSet : Bool) (reads : Nat → Option ℚ)
    (tstamps : Nat → Nat) (s : StreamState) : Nat → StreamState
  | 0 => s
  | k + 1 =>
      streamStep store_data h5fileSet (reads k) (tstamps k)
        (streamIter store_data h5fileSet reads tstamps s k)

/-- The `while` guard of `stream` (source line 200): `self._running and
((self._curr_itteration < self.duration) or self.duration == 0)`. -/
def streamGuard (duration : ℚ) (s : StreamState) : Bool :=
  s.running &&
    (decide ((s.currItteration : ℚ) < duration) || decide (duration = 0))

/-- The guard at check `k` of a run started by `stream` from state `s`:
`k` iterations have executed, and an external actor has cleared
`_running` before this check iff `stopped k`. -/
def guardAt (duration : ℚ) (store_data h5fileSet : Bool)
    (reads : Nat → Option ℚ) (tstamps : Nat → Nat) (stopped : Nat → Bool)
    (s : StreamState) (k : Nat) : Bool :=
  streamGuard duration
    { streamIter store_data h5fileSet reads tstamps (stream_start s) k with
        running := !stopped k }

/-- The run from `s` performs exactly `n` iterations: the guard holds
at checks `0..n-1` and fails at check `n`. -/
def performsExactly (duration : ℚ) (store_data h5fileSet : Bool)
    (reads : Nat → Option ℚ) (tstamps : Nat → Nat) (stopped : Nat → Bool)
    (s : StreamState) (n : Nat) : Prop :=
  (∀ k < n,
    guardAt duration store_data h5fileSet reads tstamps stopped s k = true) ∧
  guardAt duration store_data h5fileSet reads tstamps stopped s n = false

lemma streamStep_currItteration (sd h5 : Bool) (r : Option ℚ) (t : Nat)
    (s : StreamState) :
    (streamStep sd h5 r t s).currItteration = s.currItteration + 1 := by
  cases r <;> rfl

lemma streamIter_currItteration (sd h5 : Bool) (reads : Nat → Option ℚ)
    (tstamps : Nat → Nat) (s : StreamState) (k : Nat) :
    (streamIter sd h5 reads tstamps s k).currItteration =
      s.currItteration + k := by
  induction k with
  | zero => rfl
  | succ k ih => rw [streamIter, streamStep_currItteration, ih]; omega

/-- C4 (the code's behavior at the claim's inputs): with `duration = 0`
the guard at every check is exactly the external running flag, so the
loop runs until an external stop; but with `duration = 10` (the
configured `interval`, 2 in the claim, does not occur in the guard at
all) the loop performs exactly 10 iterations and is still running after
5 — the guard compares the iteration counter directly against
`duration`, never dividing by the interval. -/
theorem stream_iteration_bound_is_duration (sd h5 : Bool)
    (reads : Nat → Option ℚ) (tstamps : Nat → Nat) (t0 : Nat) :
    (∀ stopped : Nat → Bool, ∀ k : Nat,
      guardAt 0 sd h5 reads tstamps stopped (initState t0) k = !stopped k) ∧
    performsExactly 10 sd h5 reads tstamps (fun _ => false)
      (initState t0) 10 ∧
    guardAt 10 sd h5 reads tstamps (fun _ => false) (initState t0) 5 =
      true := by
  refine ⟨fun stopped k => ?_, ⟨fun k hk => ?_, ?_⟩, ?_⟩
  · simp [guardAt, streamGuard]
  · have hq : ((k : ℚ) < 10) := by exact_mod_cast hk
    simp [guardAt, streamGuard, streamIter_currItteration, stream_start,
      initState, hq]
  · simp [guardAt, streamGuard, streamIter_currItteration, stream_start,
      initState]
  · have hq : ((5 : ℚ) < 10) := by norm_num
    simp [guardAt, streamGuard, streamIter_currItteration, stream_start,
      initState]
    exact_mod_cast hq

/-- C10: for every nonzero `duration` and no external stop, the loop
performs only finitely many iterations: the iteration counter strictly
increases by one per pass, and the guard fails at some check (namely
`⌈duration⌉.toNat` steps after the start), so the body cannot execute
forever. -/
theorem stream_terminates_when_duration_nonzero (duration : ℚ)
    (hd : duration ≠ 0) (sd h5 : Bool) (reads : Nat → Option ℚ)
    (tstamps : Nat → Nat) (s : StreamState) :
    (∀ k,
      (streamIter sd h5 reads tstamps (stream_start s)
        (k + 1)).currItteration =
      (streamIter sd h5 reads tstamps (stream_start s) k).currItteration
        + 1) ∧
    ∃ n, guardAt duration sd h5 reads tstamps (fun _ => false) s n =
      false := by
  constructor
  · intro k
    rw [streamIter, streamStep_currItteration]
  · refine ⟨⌈duration⌉.toNat, ?_⟩
    have hceil : duration ≤ (⌈duration⌉.toNat : ℚ) := by
      rcases le_or_lt 0 ⌈duration⌉ with h | h
      · calc duration ≤ (⌈duration⌉ : ℚ) := Int.le_ceil duration
          _ = ((⌈duration⌉.toNat : ℤ) : ℚ) := by rw [Int.toNat_of_nonneg h]
          _ = (⌈duration⌉.toNat : ℚ) := by push_cast; ring
      · have hd0 : duration < 0 := by
          by_contra hcon
          push_neg at hcon
          have : (0 : ℤ) ≤ ⌈duration⌉ := Int.ceil_nonneg hcon
          omega
        calc duration ≤ 0 := le_of_lt hd0
          _ ≤ (⌈duration⌉.toNat : ℚ) := by positivity
    have hbig : ¬(((stream_start s).currItteration + ⌈duration⌉.toNat : ℚ)
        < duration) := by
      push_neg
      calc duration ≤ (⌈duration⌉.toNat : ℚ) := hceil
        _ ≤ (stream_start s).currItteration + ⌈duration⌉.toNat := by
            exact le_add_of_nonneg_left (by positivity)
    simp [guardAt, streamGuard, streamIter_currItteration, hd]
    push_neg at hbig
    exact hbig

/-- Witness for C10: at `duration = 10` the hypothesis holds and the
loop's guard fails at some check. -/
theorem stream_terminates_when_duration_nonzero_witness :
    (10 : ℚ) ≠ 0 ∧
    ∃ n, guardAt 10 true true (fun _ => some 1) (fun _ => 0)
      (fun _ => false) (initState 0) n = false :=
  ⟨by norm_num,
    (stream_terminates_when_duration_nonzero 10 (by norm_num) true true
      (fun _ => some 1) (fun _ => 0) (initState 0)).2⟩

/-- C5 counterexample: with the store flag set (and a configured h5
path), an iteration whose read failed appends NO row to the table —
while a successful one does — even though the failed iteration still
counts and logs; so failed reads are not forwarded to the Recorder. -/
theorem failed_read_not_recorded :
    (streamStep true true none 7 (stream_start (initState 0))).records =
      [] ∧
    (streamStep true true none 7
      (stream_start (initState 0))).currItteration = 1 ∧
    (streamStep true true none 7 (stream_start (initState 0))).logLines =
      1 ∧
    (streamStep true true (some 200) 7
      (stream_start (initState 0))).records = [(0, 7, 200)] :=
  ⟨rfl, rfl, rfl, rfl⟩

/-- C5 (amended): in every iteration, a failed read appends nothing to
the Recorder even when the store flag is set — only a successful read
with the store flag set (and a configured h5 path) appends one record,
carrying the pressure value; apart from the recorded row the two paths
advance the state identically (one log line and counter + 1 each), and
a failed read does not stop the loop. -/
theorem streamStep_records_only_successes (sd h5 : Bool) (r : Option ℚ)
    (t : Nat) (s : StreamState) :
    (streamStep sd h5 none t s).records = s.records ∧
    (∀ p : ℚ, (streamStep true true (some p) t s).records =
      s.records ++ [(s.currItteration, t, p)]) ∧
    (streamStep sd h5 r t s).currItteration = s.currItteration + 1 ∧
    (streamStep sd h5 r t s).logLines = s.logLines + 1 ∧
    (streamStep sd h5 r t s).running = s.running ∧
    (streamStep sd h5 r t s).startTime = s.startTime := by
  refine ⟨rfl, fun p => by simp [streamStep, write_to_h5], ?_, ?_, ?_, ?_⟩
    <;> cases r <;> rfl

/-- The read oracle of the C7 counterexample: the read at iteration 1
fails, all others return pressure 1. -/
def readsWithOneFailure : Nat → Option ℚ :=
  fun j => if j = 1 then none else some 1

/-- C7 counterexample: in a three-iteration run whose middle read
fails, the indices passed to the Recorder are `[0, 2]`, not the gapless
`[0, 1]` the claim requires for two appends. -/
theorem recorder_indices_have_gap :
    ((streamIter true true readsWithOneFailure (fun _ => 0)
        (stream_start (initState 0)) 3).records.map fun x => x.1) =
      [0, 2] ∧
    ([0, 2] : List Nat) ≠ [0, 1] :=
  ⟨rfl, by decide⟩

lemma streamStep_records_bound (sd h5 : Bool) (r : Option ℚ) (t : Nat)
    (s : StreamState)
    (hlt : ∀ x ∈ s.records, x.1 < s.currItteration) :
    ∀ x ∈ (streamStep sd h5 r t s).records,
      x.1 < (streamStep sd h5 r t s).currItteration := by
  intro x hx
  rw [streamStep_currItteration]
  cases r with
  | none => exact Nat.lt_succ_of_lt (hlt x hx)
  | some p =>
      simp only [streamStep] at hx
      split at hx
      · rw [write_to_h5] at hx
        split at hx
        · rcases List.mem_append.mp hx with hx | hx
          · exact Nat.lt_succ_of_lt (hlt x hx)
          · rcases List.mem_singleton.mp hx with rfl
            exact Nat.lt_succ_self _
        · exact Nat.lt_succ_of_lt (hlt x hx)
      · exact Nat.lt_succ_of_lt (hlt x hx)

lemma streamStep_records_mono (sd h5 : Bool) (r : Option ℚ) (t : Nat)
    (s : StreamState)
    (hlt : ∀ x ∈ s.records, x.1 < s.currItteration)
    (hmono : List.Pairwise (· < ·) (s.records.map fun x => x.1)) :
    List.Pairwise (· < ·)
      ((streamStep sd h5 r t s).records.map fun x => x.1) := by
  cases r with
  | none => exact hmono
  | some p =>
      simp only [streamStep]
      split
      · rw [write_to_h5]
        split
        · rw [List.map_append, List.pairwise_append]
          refine ⟨hmono, by simp, ?_⟩
          intro a ha b hb
          simp only [List.map_cons, List.map_nil, List.mem_singleton] at hb
          subst hb
          rcases List.mem_map.mp ha with ⟨x, hx, rfl⟩
          exact hlt x hx
        · exact hmono
      · exact hmono

lemma streamIter_records_invariant (sd h5 : Bool) (reads : Nat → Option ℚ)
    (tstamps : Nat → Nat) (s : StreamState) (k : Nat)
    (hlt : ∀ x ∈ s.records, x.1 < s.currItteration)
    (hmono : List.Pairwise (· < ·) (s.records.map fun x => x.1)) :
    (∀ x ∈ (streamIter sd h5 reads tstamps s k).records,
      x.1 < (streamIter sd h5 reads tstamps s k).currItteration) ∧
    List.Pairwise (· < ·)
      ((streamIter sd h5 reads tstamps s k).records.map fun x => x.1) := by
  induction k with
  | zero => exact ⟨hlt, hmono⟩
  | succ k ih =>
      rw [streamIter]
      exact ⟨streamStep_records_bound _ _ _ _ _ ih.1,
        streamStep_records_mono _ _ _ _ _ ih.1 ih.2⟩

/-- C7 (amended): across a run started on a freshly constructed object,
the sequence indices passed to the Recorder are strictly increasing —
order-preserving, no duplicates — each being the iteration counter at
the time of the append; they need not be contiguous, since an iteration
whose read failed appends nothing and leaves a gap. -/
theorem recorder_indices_strictly_increasing (sd h5 : Bool)
    (reads : Nat → Option ℚ) (tstamps : Nat → Nat) (t0 k : Nat) :
    List.Pairwise (· < ·)
      ((streamIter sd h5 reads tstamps (stream_start (initState t0))
        k).records.map fun x => x.1) :=
  (streamIter_records_invariant sd h5 reads tstamps _ k
    (by intro x hx; simp [stream_start, initState] at hx)
    (by simp [stream_start, initState])).2

/-- C8 counterexample: after a first run of two iterations on an object
constructed at time 3, starting the loop again leaves the iteration
counter at 2 (not 0) and the start timestamp at 3 (construction time),
and the first sample of the second run is recorded with sequence index
2. -/
theorem stream_start_does_not_reset :
    (stream_start (streamIter true true (fun _ => some 1) (fun _ => 5)
      (stream_start (initState 3)) 2)).currItteration = 2 ∧
    (2 : Nat) ≠ 0 ∧
    (stream_start (streamIter true true (fun _ => some 1) (fun _ => 5)
      (stream_start (initState 3)) 2)).startTime = 3 ∧
    ((streamStep true true (some 1) 9
      (stream_start (streamIter true true (fun _ => some 1) (fun _ => 5)
        (stream_start (initState 3)) 2))).records.map fun x => x.1) =
      [0, 1, 2] :=
  ⟨rfl, by decide, rfl, rfl⟩

/-- C8 (amended): entering the polling loop only sets the running flag;
the sequence index and the start timestamp are initialized at object
construction (`__init__`: index 0, timestamp = construction time) and
are NOT reset by starting the loop, so elapsed times are measured from
construction and only a run on a fresh object has its first sample at
sequence index 0 — a later run on the same object continues from the
previous counter. -/
theorem stream_start_only_sets_running (s : StreamState) (t0 : Nat) :
    (stream_start s).running = true ∧
    (stream_start s).currItteration = s.currItteration ∧
    (stream_start s).startTime = s.startTime ∧
    (stream_start s).records = s.records ∧
    (initState t0).currItteration = 0 ∧
    (initState t0).startTime = t0 :=
  ⟨rfl, rfl, rfl, rfl, rfl, rfl⟩

end IonGauge354
